import Mathlib

/-!
Verification of the AgentOrchestrator security core against its specification.

The Python sources are shallowly embedded: Redis hashes and sorted sets become
association lists, fallible operations return `Option`/`Except`, and time is an
explicit integer parameter.  Each embedded definition cites the source file and
lines it transcribes.
-/

namespace AgentOrch

/-! ## Store primitives (association-list model of Redis hashes/strings) -/

/-- Lookup of a field in a Redis hash (first binding wins; keys are unique in
all stores we build). -/
def lookupA {α : Type} : List (String × α) → String → Option α
  | [], _ => none
  | (k, v) :: rest, key => if k = key then some v else lookupA rest key

/-- `HSET`/`SET`: replace the binding for `key` if present, else append it. -/
def setA {α : Type} : List (String × α) → String → α → List (String × α)
  | [], key, v => [(key, v)]
  | (k, w) :: rest, key, v =>
      if k = key then (k, v) :: rest else (k, w) :: setA rest key v

theorem lookupA_eq_none {α : Type} (l : List (String × α)) (k : String) :
    lookupA l k = none ↔ k ∉ l.map Prod.fst := by
  induction l with
  | nil => simp [lookupA]
  | cons hd tl ih =>
      rcases hd with ⟨k0, v0⟩
      by_cases h : k0 = k
      · subst h; simp [lookupA]
      · simp [lookupA, h, ih, Ne.symm h]

theorem lookupA_setA_ne {α : Type} (l : List (String × α)) (k k' : String)
    (v : α) (h : k ≠ k') : lookupA (setA l k v) k' = lookupA l k' :=
  by
  induction l with
  | nil => simp [setA, lookupA, h]
  | cons hd tl ih =>
      rcases hd with ⟨k0, v0⟩
      by_cases h0 : k0 = k
      · subst h0; simp [setA, lookupA, h]
      · simp [setA, lookupA, h0, ih]

/-! ## RBAC data model — `src/agentorchestrator/security/rbac.py`

`Role` (lines 21–45) and `EnhancedApiKey` (lines 48–90); fields that no
embedded operation reads (`ip_whitelist`, `user_id`, `organization_id`,
`metadata`) are omitted.  A role store models the resolved view of
`get_role` (name → stored role), an API-key store models the
`rbac:api_keys` hash (key → parsed record). -/

structure Role where
  name : String
  description : String
  permissions : List String
  resources : List String
  parent_roles : List String
deriving DecidableEq, Repr

structure EnhancedApiKey where
  key : String
  name : String
  roles : List String
  rate_limit : Nat
  expiration : Option Int
  is_active : Bool
deriving DecidableEq, Repr

/-- The resource-qualified permission string built at rbac.py line 397. -/
def resourceQualified (permission t i : String) : String :=
  permission ++ ":" ++ t ++ ":" ++ i

/-- Body of the per-role check inside `RBACManager.has_permission`
(rbac.py lines 386–405): direct permission, resource-qualified permission
(only when both resource arguments are given), then the *direct* parents'
own permission lists. -/
def roleGrants (roleStore : List (String × Role)) (permission : String)
    (rt ri : Option String) (roleName : String) : Bool :=
  match lookupA roleStore roleName with
  | none => false
  | some role =>
      decide (permission ∈ role.permissions)
      || (match rt, ri with
          | some t, some i => decide (resourceQualified permission t i ∈ role.permissions)
          | _, _ => false)
      || role.parent_roles.any fun pn =>
          match lookupA roleStore pn with
          | some p => decide (permission ∈ p.permissions)
          | none => false

/-- `RBACManager.has_permission` (rbac.py lines 346–410).  `now` is the value
of `time.time()`.  The `e ≠ 0` conjunct mirrors Python truthiness in
`if expiration and time.time() > expiration`. -/
def hasPermission (keyStore : List (String × EnhancedApiKey))
    (roleStore : List (String × Role)) (now : Int)
    (api_key permission : String) (rt ri : Option String) : Bool :=
  match lookupA keyStore api_key with
  | none => false
  | some info =>
      if info.is_active = false then false
      else if (match info.expiration with
               | some e => decide (e ≠ 0) && decide (e < now)
               | none => false) then false
      else if info.roles.isEmpty then false
      else info.roles.any (roleGrants roleStore permission rt ri)

/-- `DEFAULT_ROLES` (rbac.py lines 414–443), keyed by role name. -/
def DEFAULT_ROLES : List (String × Role) :=
  [ ("admin", ⟨"admin", "Administrator with full access", ["*"], ["*"], []⟩),
    ("user", ⟨"user", "Standard user with limited access", ["read", "execute"],
      ["workflow", "agent"], []⟩),
    ("api", ⟨"api", "API access for integrations", ["read", "write", "execute"],
      ["workflow", "agent"], []⟩),
    ("guest", ⟨"guest", "Guest with minimal access", ["read"], ["workflow"], []⟩) ]

/-- A credential bound to the default `admin` role only. -/
def adminKeyStore : List (String × EnhancedApiKey) :=
  [("k1", ⟨"k1", "root", ["admin"], 60, none, true⟩)]

/-! ## Authentication middleware — `src/agentorchestrator/middleware/auth.py`

`validate_api_key` (lines 100–179) reads two stores: the `api_keys` hash
("traditional"), whose values are JSON dicts, and the enterprise pair
`apikey:{key}` / `apikey:{key}:metadata`.  A parsed traditional record is
modelled with the fields the surrounding system can store in that JSON
(including `is_active`/`expiration`, which `validate_api_key` never reads).
Stored values are assumed non-empty (Python truthiness of the raw bytes). -/

structure TradKeyRecord where
  key : String
  name : String
  roles : List String
  rate_limit : Nat
  expiration : Option Int
  is_active : Bool
deriving DecidableEq, Repr

structure EnterpriseMeta where
  name : String
  role : String
  expires : String
deriving DecidableEq, Repr

inductive ValidatedKey
  | trad (rec : TradKeyRecord)
  | ent (key name role : String)
deriving DecidableEq, Repr

/-- `AuthMiddleware.validate_api_key` (auth.py lines 100–179). -/
def validateApiKey (trad : List (String × TradKeyRecord))
    (ent : List (String × String)) (entMeta : List (String × EnterpriseMeta))
    (api_key : String) : Option ValidatedKey :=
  if api_key = "" then none
  else if (lookupA trad api_key).isNone && (lookupA ent api_key).isNone then none
  else
    match lookupA trad api_key with
    | some rec => if rec.key = api_key then some (.trad rec) else none
    | none =>
        match lookupA ent api_key with
        | none => none
        | some _roleVal =>
            match lookupA entMeta api_key with
            | none => none
            | some m => some (.ent api_key m.name m.role)

inductive AuthDecision
  | publicBypass
  | reject (status : Nat) (message : String)
  | proceed (data : ValidatedKey)
deriving DecidableEq, Repr

/-- `AuthConfig.public_paths` (auth.py lines 24–31). -/
def authPublicPaths : List String :=
  ["/", "/api/v1/health", "/docs", "/redoc", "/openapi.json", "/openapi.json/"]

/-- The authentication decision of `AuthMiddleware.__call__`
(auth.py lines 293–499): public-path bypass, 401 on a missing header,
401 when the key is in neither store, 401 when `validate_api_key` fails,
otherwise the request proceeds to the wrapped application with the key
data attached to the request state. -/
def asgiAuth (trad : List (String × TradKeyRecord))
    (ent : List (String × String)) (entMeta : List (String × EnterpriseMeta))
    (path : String) (header : Option String) : AuthDecision :=
  if path ∈ authPublicPaths then .publicBypass
  else
    match header with
    | none => .reject 401 "API key is missing"
    | some api_key =>
        if (lookupA trad api_key).isNone && (lookupA ent api_key).isNone then
          .reject 401 "Invalid API key"
        else
          match validateApiKey trad ent entMeta api_key with
          | none => .reject 401 "Invalid API key"
          | some d => .proceed d

/-- A traditional-store record whose credential is inactive and expired. -/
def c2rec : TradKeyRecord := ⟨"k-inactive", "demo", ["admin"], 60, some 10, false⟩

/-! ## Audit logger — `src/agentorchestrator/security/audit.py`

`AuditLogger.log_event` (lines 136–155) issues four separate awaited store
commands: `ZADD audit:index:timestamp`, `ZADD audit:index:type:{t}`,
optionally `ZADD audit:index:user:{u}`, and finally
`HSET audit:events {id} {body}`.  The trace below records every observable
store state between commands. -/

structure AuditEventM where
  event_id : String
  event_type : String
  user_id : Option String
  timestamp : Int
deriving DecidableEq, Repr

structure AuditStore where
  tsIndex : List (String × Int)
  typeIndex : List (String × String × Int)
  userIndex : List (String × String × Int)
  events : List (String × AuditEventM)
deriving DecidableEq, Repr

def emptyAuditStore : AuditStore := ⟨[], [], [], []⟩

/-- The sequence of store states produced by `log_event` (audit.py lines
142–152), one entry per awaited command boundary; when `user_id` is absent
the third command is skipped and the state repeats. -/
def logEventTrace (s : AuditStore) (e : AuditEventM) : List AuditStore :=
  let s1 : AuditStore := { s with tsIndex := s.tsIndex ++ [(e.event_id, e.timestamp)] }
  let s2 : AuditStore :=
    { s1 with typeIndex := s1.typeIndex ++ [(e.event_type, e.event_id, e.timestamp)] }
  let s3 : AuditStore :=
    match e.user_id with
    | some u => { s2 with userIndex := s2.userIndex ++ [(u, e.event_id, e.timestamp)] }
    | none => s2
  let s4 : AuditStore := { s3 with events := setA s3.events e.event_id e }
  [s, s1, s2, s3, s4]

/-- Whether the event body is stored (claim C4's "event body exists"). -/
def bodyStored (s : AuditStore) (e : AuditEventM) : Bool :=
  (lookupA s.events e.event_id).isSome

/-- Whether all applicable index entries for `e` are present. -/
def allIndexesStored (s : AuditStore) (e : AuditEventM) : Bool :=
  decide ((e.event_id, e.timestamp) ∈ s.tsIndex)
  && decide ((e.event_type, e.event_id, e.timestamp) ∈ s.typeIndex)
  && (match e.user_id with
      | some u => decide ((u, e.event_id, e.timestamp) ∈ s.userIndex)
      | none => true)

/-- Whether some index entry for `e` is present. -/
def someIndexStored (s : AuditStore) (e : AuditEventM) : Bool :=
  decide ((e.event_id, e.timestamp) ∈ s.tsIndex)
  || decide ((e.event_type, e.event_id, e.timestamp) ∈ s.typeIndex)
  || (match e.user_id with
      | some u => decide ((u, e.event_id, e.timestamp) ∈ s.userIndex)
      | none => false)

/-- Claim C4's atomicity invariant for one observable state: the body never
exists without all applicable index entries, and no index entry exists
without the body. -/
def auditAtomic (s : AuditStore) (e : AuditEventM) : Bool :=
  (!bodyStored s e || allIndexesStored s e)
  && (!someIndexStored s e || bodyStored s e)

def evC4 : AuditEventM := ⟨"e1", "authentication", some "u1", 100⟩

/-! ## Rate limiter — `src/agentorchestrator/middleware/rate_limiter.py`

`RateLimiter.check_rate_limit` (lines 34–77).  The per-identity sorted set
`rate_limit:{ip}` stores member `str(current_time)` with score
`current_time`; distinct members therefore correspond to distinct integer
seconds and the set is modelled as a duplicate-free list of timestamps.
`expireAt` models the key's Redis TTL (the key reads as absent once
`now ≥ expireAt`). -/

structure RLState where
  entries : List Int
  expireAt : Option Int
deriving DecidableEq, Repr

/-- Key load honouring the TTL set by `pipe.expire(key, 60)`. -/
def loadWindow (st : RLState) (t : Int) : List Int :=
  match st.expireAt with
  | some e => if e ≤ t then [] else st.entries
  | none => st.entries

/-- `pipe.zremrangebyscore(key, 0, current_time - 60)` (line 55): drops
entries whose score lies in the closed interval `[0, t - 60]`. -/
def purgeOld (t : Int) (es : List Int) : List Int :=
  es.filter fun s => !(decide (0 ≤ s) && decide (s ≤ t - 60))

/-- `pipe.zadd(key, {str(current_time): current_time})` (line 61): a fresh
member is appended; an existing member keeps its (identical) score. -/
def zaddNow (t : Int) (es : List Int) : List Int :=
  if t ∈ es then es else es ++ [t]

structure RLResult where
  allowed : Bool
  state : RLState
deriving DecidableEq, Repr

/-- `check_rate_limit` (lines 34–77): the whole pipeline runs first, then the
request is rejected iff the post-purge, pre-add count `request_count`
satisfies `request_count > requests_per_minute`. -/
def checkRateLimit (limit : Nat) (st : RLState) (t : Int) : RLResult :=
  let es := loadWindow st t
  let purged := purgeOld t es
  let request_count := purged.length
  { allowed := !decide (request_count > limit),
    state := { entries := zaddNow t purged, expireAt := some (t + 60) } }

/-- Iterate `check_rate_limit` over a list of request times, returning the
sequence of allow/reject decisions (`true` = allowed). -/
def runCalls (limit : Nat) : RLState → List Int → List Bool
  | _, [] => []
  | st, t :: rest =>
      let r := checkRateLimit limit st t
      r.allowed :: runCalls limit r.state rest

def emptyRL : RLState := ⟨[], none⟩

/-- 61 request times inside one 60-second window: seconds 0‥59 and a second
request at second 59. -/
def timesC3 : List Int := ((List.range 60).map fun n => (n : Int)) ++ [59]

/-! ## Effective permissions — `RBACManager.get_effective_permissions`
(rbac.py lines 210–242).  The recursive `process_role` marks a role name
visited before resolving it, accumulates its direct permissions, then
recurses into its parent names; the explicit worklist below performs the
identical pre-order traversal.  Termination is by well-founded recursion on
(number of stored role names not yet visited, worklist length): every
recursive step either shortens the worklist without touching the visited
set or visits a fresh stored name. -/

def effDfs (store : List (String × Role)) :
    List String → List String → List String → List String
  | [], _, perms => perms
  | n :: rest, visited, perms =>
      if n ∈ visited then
        effDfs store rest visited perms
      else
        match hl : lookupA store n with
        | none => effDfs store rest (n :: visited) perms
        | some r =>
            effDfs store (r.parent_roles ++ rest) (n :: visited) (perms ++ r.permissions)
  termination_by wl visited _ =>
    (((store.map Prod.fst).toFinset \ visited.toFinset).card, wl.length)
  decreasing_by
  · apply Prod.Lex.right
    simp
  · have hn : n ∉ store.map Prod.fst := (lookupA_eq_none _ _).1 hl
    have hset : (store.map Prod.fst).toFinset \ (n :: visited).toFinset
        = (store.map Prod.fst).toFinset \ visited.toFinset := by
      ext x
      simp only [List.toFinset_cons, Finset.mem_sdiff, Finset.mem_insert,
        List.mem_toFinset]
      constructor
      · rintro ⟨h1, h2⟩
        exact ⟨h1, fun hv => h2 (Or.inr hv)⟩
      · rintro ⟨h1, h2⟩
        exact ⟨h1, fun hc => hc.elim (fun he => hn (he ▸ h1)) h2⟩
    rw [hset]
    apply Prod.Lex.right
    simp
  · rename_i hnv
    have hn : n ∈ store.map Prod.fst := by
      by_contra hc
      rw [(lookupA_eq_none store n).2 hc] at hl
      exact Option.noConfusion hl
    apply Prod.Lex.left
    apply Finset.card_lt_card
    rw [Finset.ssubset_iff_of_subset
      (Finset.sdiff_subset_sdiff (le_refl _) ?_)]
    · refine ⟨n, ?_, ?_⟩
      · simp only [Finset.mem_sdiff, List.mem_toFinset]
        exact ⟨hn, hnv⟩
      · simp
    · simp only [List.toFinset_cons]
      exact Finset.subset_insert _ _

/-- `get_effective_permissions(role_names)` (rbac.py lines 210–242); the
returned accumulator list models the Python result set (membership is what
matters). -/
def getEffectivePermissions (store : List (String × Role)) (roleNames : List String) :
    List String :=
  effDfs store roleNames [] []

/-- The role graph of claim C5: chain `A → B → C` with only `C` granting
`"p"`, plus the cycle `A → B → A`. -/
def cyclicStore : List (String × Role) :=
  [ ("A", ⟨"A", "", [], [], ["B"]⟩),
    ("B", ⟨"B", "", [], [], ["A", "C"]⟩),
    ("C", ⟨"C", "", ["p"], [], []⟩) ]

/-! ## Encryption service — `src/agentorchestrator/security/encryption.py`

`Encryptor.encrypt`/`decrypt` (lines 85–117) wrap the external
`cryptography.fernet.Fernet` authenticated-encryption primitive with JSON
serialization for dicts, UTF-8-style encoding for strings, and base64
transport encoding.  `FernetTok` is an idealized model of that external
primitive, capturing its documented guarantees: a token decrypts to its
payload under the encrypting key and is rejected (`InvalidToken`) under any
other key; a byte string that is not a well-formed token is rejected.
Keys and nonces are abstract numerals; a fresh nonce per call models the
non-deterministic IV. -/

structure FernetTok where
  key : Nat
  nonce : Nat
  payload : List Nat
deriving DecidableEq, Repr

def fernetEncrypt (key nonce : Nat) (msg : List Nat) : FernetTok := ⟨key, nonce, msg⟩

def fernetDecrypt (key : Nat) (tok : FernetTok) : Option (List Nat) :=
  if tok.key = key then some tok.payload else none

/-- A base64-transported ciphertext string: either the encoding of a valid
token or arbitrary malformed text. -/
inductive Ciphertext
  | valid (tok : FernetTok)
  | malformed (s : String)
deriving DecidableEq, Repr

/-- Python values accepted by `Encryptor.encrypt` (line 85). -/
inductive PyData
  | pstr (s : String)
  | pbytes (b : List Nat)
  | pdict (d : List (String × String))
deriving DecidableEq, Repr

def encodeStr (s : String) : List Nat := s.data.map Char.toNat

/-- `json.dumps` on a flat string-valued dict (the canonical serialized form
of encryption.py line 95). -/
def jsonDumps (d : List (String × String)) : String :=
  "\x7b" ++ String.intercalate ", "
    (d.map fun kv => "\x22" ++ kv.1 ++ "\x22: \x22" ++ kv.2 ++ "\x22") ++ "\x7d"

/-- The serialization performed by `Encryptor.encrypt` before the Fernet
call (encryption.py lines 94–98): dicts via `json.dumps`, strings via
`str(data).encode()`, bytes unchanged. -/
def serializePy : PyData → List Nat
  | .pstr s => encodeStr s
  | .pbytes b => b
  | .pdict d => encodeStr (jsonDumps d)

namespace Encryptor

/-- `Encryptor.encrypt` (encryption.py lines 85–101). -/
def encrypt (key nonce : Nat) (data : PyData) : Ciphertext :=
  .valid (fernetEncrypt key nonce (serializePy data))

/-- `Encryptor.decrypt` (encryption.py lines 103–117): base64 decoding or
Fernet verification failure is caught and re-raised as
`ValueError("Failed to decrypt data")` — the spec's `DecryptionError`
kind — so no byte string is ever returned on failure. -/
def decrypt (key : Nat) (c : Ciphertext) : Except String (List Nat) :=
  match c with
  | .malformed _ => .error "Failed to decrypt data"
  | .valid tok =>
      match fernetDecrypt key tok with
      | some m => .ok m
      | none => .error "Failed to decrypt data"

end Encryptor

/-! ## Response cache — `src/agentorchestrator/middleware/cache.py` -/

structure CacheCfg where
  enabled : Bool
  excluded_paths : List String
deriving DecidableEq, Repr

/-- `ResponseCache._get_cache_key` (cache.py lines 56–73): the fingerprint
string `cache:{api_key}:{method}:{path}:{query_params}:{body}`, where the
body participates only for POST/PUT requests. -/
def getCacheKey (apiKey method path query body : String) : String :=
  let b := if method = "POST" ∨ method = "PUT" then body else ""
  "cache:" ++ apiKey ++ ":" ++ method ++ ":" ++ path ++ ":" ++ query ++ ":" ++ b

/-- `ResponseCache.get_cached_response` (cache.py lines 75–95); the store
models the Redis string keyspace, values are the cached JSON payloads. -/
def getCachedResponse (cfg : CacheCfg) (store : List (String × String))
    (apiKey method path query body : String) : Option String :=
  if cfg.enabled = false then none
  else if path ∈ cfg.excluded_paths then none
  else lookupA store (getCacheKey apiKey method path query body)

/-- `ResponseCache.cache_response` (cache.py lines 97–115). -/
def cacheResponse (cfg : CacheCfg) (store : List (String × String))
    (apiKey method path query body response : String) : List (String × String) :=
  if cfg.enabled = false then store
  else if path ∈ cfg.excluded_paths then store
  else setA store (getCacheKey apiKey method path query body) response

/-! ## Data protection — `DataProtectionService`
(encryption.py lines 214–274).  Dict values are Python strings: either
ordinary plaintext or the base64 token string produced by
`Encryptor.encrypt`; a key bound to `Option.none` models a Python `None`
value. -/

inductive CVal
  | plain (s : String)
  | ct (tok : FernetTok)
deriving DecidableEq, Repr

/-- The display string of a ciphertext value (its base64 token text), used
when a value is re-serialized by `str(data).encode()`. -/
def tokText (t : FernetTok) : String :=
  "ft:" ++ toString t.key ++ ":" ++ toString t.nonce ++ ":"
    ++ String.intercalate "," (t.payload.map toString)

def cvalBytes : CVal → List Nat
  | .plain s => encodeStr s
  | .ct t => encodeStr (tokText t)

/-- `DataProtectionService.encrypt_sensitive_data` (encryption.py lines
225–243): each listed field that is present with a non-`None` value is
replaced by `encryption_manager.encrypt(...)`; everything else passes
through unchanged. -/
def encryptSensitiveData (key nonce : Nat) (data : List (String × Option CVal))
    (sensitive_fields : List String) : List (String × Option CVal) :=
  data.map fun fv =>
    if fv.1 ∈ sensitive_fields then
      match fv.2 with
      | some v => (fv.1, some (.ct (fernetEncrypt key nonce (cvalBytes v))))
      | none => (fv.1, none)
    else fv

/-- `DataProtectionService.decrypt_sensitive_data` (encryption.py lines
245–274).  The code calls `self.encryption_manager.decrypt_to_str(...)`,
but `Encryptor` defines no such method (only `decrypt_to_string`), so the
call raises `AttributeError`; the surrounding `except Exception` catches it
and sets `result[field] = None`.  Every listed field that is present with a
non-`None` value therefore ends up `None`, regardless of its content. -/
def decryptSensitiveData (data : List (String × Option CVal))
    (sensitive_fields : List String) : List (String × Option CVal) :=
  data.map fun fv =>
    if fv.1 ∈ sensitive_fields then
      match fv.2 with
      | some _ => (fv.1, (none : Option CVal))
      | none => (fv.1, none)
    else fv

def c8data : List (String × Option CVal) :=
  [("ssn", some (.plain "123-45-6789")), ("name", some (.plain "alice"))]

/-! ## Batch processor — `src/agentorchestrator/batch/processor.py` -/

structure ItemResult (β : Type) where
  status : String
  data : Option β
  error : Option String
deriving DecidableEq, Repr

structure BatchJobM (α β : Type) where
  id : String
  agent : String
  inputs : List α
  status : String
  results : List (ItemResult β)
  completed_at : Option Int
  error : Option String
deriving DecidableEq, Repr

/-- One iteration of the per-item loop in `BatchProcessor.process_job`
(processor.py lines 104–109): the workflow result becomes
`\x7b"status": "success", "data": result\x7d`, an exception becomes
`\x7b"status": "error", "error": str(e)\x7d`. -/
def processItem {α β : Type} (wf : α → Except String β) (input : α) : ItemResult β :=
  match wf input with
  | .ok r => ⟨"success", some r, none⟩
  | .error e => ⟨"error", none, some e⟩

/-- `BatchProcessor.process_job` (processor.py lines 88–121): every input is
attempted (item exceptions are caught inside the loop), then the job is
marked `completed` with a completion timestamp; the outer `except` branch
(status `failed`) is reachable only from store errors, which the pure model
does not raise. -/
def processJob {α β : Type} (wf : α → Except String β) (now : Int)
    (job : BatchJobM α β) : BatchJobM α β :=
  { job with
    results := job.inputs.map (processItem wf),
    status := "completed",
    completed_at := some now }

/-! ## Theorems -/

/-- A role chain `X → parent Y → parent Z` where only `Z` grants `"read"`. -/
def chainRoles : List (String × Role) :=
  [ ("X", ⟨"X", "", [], [], ["Y"]⟩),
    ("Y", ⟨"Y", "", [], [], ["Z"]⟩),
    ("Z", ⟨"Z", "", ["read"], [], []⟩) ]

def chainKeyStore : List (String × EnhancedApiKey) :=
  [("k2", ⟨"k2", "chain", ["X"], 60, none, true⟩)]

/-- Claim C1: `has_permission` is claimed to succeed exactly when the
credential's effective permission set (direct plus transitively inherited)
contains the permission, its resource-qualified form, or the
universal-admin sentinel `"*"`; in particular an admin-bound credential
should satisfy every check.  The code evaluates it to `false` for an
active, unexpired credential bound to the default `admin` role (whose only
permission is `"*"`) checking `"read"`, and likewise for a credential whose
permission is only reachable through two levels of parents, even though the
effective permission set computed by `get_effective_permissions` does
contain it: `has_permission` never interprets `"*"` and consults only the
direct permissions of a role's immediate parents. -/
theorem c1_admin_and_transitive_denied :
    hasPermission adminKeyStore DEFAULT_ROLES 1000 "k1" "read" none none = false
    ∧ hasPermission chainKeyStore chainRoles 1000 "k2" "read" none none = false
    ∧ "read" ∈ getEffectivePermissions chainRoles ["X"] := by
  refine ⟨by decide, by decide, ?_⟩
  simp [getEffectivePermissions, effDfs, chainRoles, lookupA]

/-- Claim C2: an inactive (and expired) credential is claimed never to pass
any permission check and to be rejected with 401 at authentication.  The
first half holds: `has_permission` returns `false` for it.  The second half
fails: `AuthMiddleware.validate_api_key` never reads `is_active` or
`expiration`, so a request presenting the credential proceeds past
authentication with the stale record attached. -/
theorem c2_inactive_credential_proceeds :
    hasPermission [("k-inactive", ⟨"k-inactive", "demo", ["admin"], 60, some 10, false⟩)]
      DEFAULT_ROLES 1000 "k-inactive" "read" none none = false
    ∧ asgiAuth [("k-inactive", c2rec)] [] [] "/api/v1/agents" (some "k-inactive")
        = .proceed (.trad c2rec) := by decide

set_option maxRecDepth 20000

/-- Claim C3 counterexample: with limit 60, after 60 requests at seconds
0‥59, the 61st request inside the same 60-second window is ALLOWED
(`some true`), not rejected with 429 as the claim states: the code rejects
only when the post-purge, pre-add count strictly exceeds the limit, and
here that count is exactly 60. -/
theorem c3_sixty_first_call_allowed :
    (runCalls 60 emptyRL timesC3).getLast? = some true := by decide

/-- Claim C3 as amended: a call is rejected precisely when the post-purge,
pre-add count of window timestamps strictly exceeds the configured limit;
consequently, with limit 60, the 60 calls of a single window all succeed,
the 61st within the same window also succeeds, and the call after the
window has fully elapsed (second 120) succeeds as well. -/
theorem c3_rejection_boundary :
    (∀ (limit : Nat) (st : RLState) (t : Int),
        (checkRateLimit limit st t).allowed = false
          ↔ (purgeOld t (loadWindow st t)).length > limit)
    ∧ ((runCalls 60 emptyRL (timesC3 ++ [120])).all (fun d => d)) = true := by
  constructor
  · intro limit st t
    simp [checkRateLimit]
  · decide

/-- Claim C4: `log_event` is claimed to write the event body and all its
index entries as one atomic batch.  The code instead issues four separate
awaited store commands (timestamp index, type index, actor index, body), so
after the first command the timestamp index already references the event
while its body is absent — an observable intermediate state violating the
claimed invariant. -/
theorem c4_log_event_not_atomic :
    auditAtomic ((logEventTrace emptyAuditStore evC4).get ⟨1, by decide⟩) evC4 = false
    ∧ someIndexStored ((logEventTrace emptyAuditStore evC4).get ⟨1, by decide⟩) evC4 = true
    ∧ bodyStored ((logEventTrace emptyAuditStore evC4).get ⟨1, by decide⟩) evC4 = false := by
  decide

/-- Claim C5: `get_effective_permissions` terminates on cyclic role graphs
(the embedding `effDfs` is defined by well-founded recursion on the pair
(number of stored role names not yet visited, worklist length), which is
exactly the visited-set short-circuit of the source), and on the chain
`A → parent B → parent C` with the additional cycle `A → B → A`, where only
`C` grants `"p"`, the effective permission set of `\x7bA\x7d` is exactly
`["p"]` — in particular it contains `"p"`. -/
theorem c5_cyclic_inheritance :
    getEffectivePermissions cyclicStore ["A"] = ["p"] := by
  simp [getEffectivePermissions, effDfs, cyclicStore, lookupA]

/-- Claim C6: decrypting under the encrypting key recovers the serialized
plaintext (a dict comes back as its canonical `json.dumps` form, per the
claim); decrypting under a different key, or decrypting a malformed
ciphertext, yields the decryption error (`ValueError("Failed to decrypt
data")` in the source, the spec's `DecryptionError` kind) and never a byte
string. -/
theorem c6_encrypt_decrypt_roundtrip :
    (∀ (k nonce : Nat) (d : PyData),
        Encryptor.decrypt k (Encryptor.encrypt k nonce d) = .ok (serializePy d))
    ∧ (∀ (k1 k2 nonce : Nat) (d : PyData), k1 ≠ k2 →
        Encryptor.decrypt k2 (Encryptor.encrypt k1 nonce d)
          = .error "Failed to decrypt data")
    ∧ (∀ (k : Nat) (s : String),
        Encryptor.decrypt k (.malformed s) = .error "Failed to decrypt data") := by
  refine ⟨?_, ?_, ?_⟩
  · intro k nonce d
    simp [Encryptor.decrypt, Encryptor.encrypt, fernetEncrypt, fernetDecrypt]
  · intro k1 k2 nonce d h
    simp [Encryptor.decrypt, Encryptor.encrypt, fernetEncrypt, fernetDecrypt, h]
  · intro k s
    rfl

/-- Witness for C6 at concrete inputs: keys 1 and 2 differ, and decrypting
a key-1 ciphertext under key 2 fails with the decryption error. -/
theorem c6_encrypt_decrypt_roundtrip_witness :
    (1 : Nat) ≠ 2
    ∧ Encryptor.decrypt 2 (Encryptor.encrypt 1 7 (.pstr "pan"))
        = .error "Failed to decrypt data" :=
  ⟨by decide, c6_encrypt_decrypt_roundtrip.2.1 1 2 7 (.pstr "pan") (by decide)⟩

theorem strData_append (s t : String) : (s ++ t).data = s.data ++ t.data := rfl

/-- Distinct credentials give distinct cache fingerprints: the fingerprint
is `"cache:" ++ apiKey ++ rest` with identical `rest`, and list-append
cancellation on the underlying character data forces the credentials to be
equal if the fingerprints are. -/
theorem getCacheKey_ne (a b m p q bd : String) (h : a ≠ b) :
    getCacheKey a m p q bd ≠ getCacheKey b m p q bd := by
  intro he
  apply h
  unfold getCacheKey at he
  have hd := congrArg String.data he
  simp only [strData_append, List.append_assoc] at hd
  have hd2 := List.append_cancel_left hd
  rcases a with ⟨da⟩
  rcases b with ⟨db⟩
  have : da = db := by
    have hr := hd2
    exact List.append_cancel_right hr
  simp [this]

/-- Claim C7: the cache fingerprint incorporates the caller's credential,
so two distinct credentials issuing requests with identical method, path,
query and body have different fingerprints, and storing a response under
credential `a`'s request leaves every lookup for credential `b`'s identical
request unchanged (in particular `a`'s entry is never served to `b`). -/
theorem c7_cache_isolation (cfg : CacheCfg) (store : List (String × String))
    (a b m p q bd v : String) (h : a ≠ b) :
    getCacheKey a m p q bd ≠ getCacheKey b m p q bd
    ∧ getCachedResponse cfg (cacheResponse cfg store a m p q bd v) b m p q bd
        = getCachedResponse cfg store b m p q bd := by
  have hk := getCacheKey_ne a b m p q bd h
  refine ⟨hk, ?_⟩
  unfold getCachedResponse cacheResponse
  by_cases he : cfg.enabled = false
  · simp [he]
  · simp only [he, if_false]
    by_cases hp : p ∈ cfg.excluded_paths
    · simp [hp]
    · simp [hp, lookupA_setA_ne _ _ _ _ hk]

/-- Witness for C7 at concrete inputs: credentials "alice" and "bob"
differ, their fingerprints differ, and an entry cached for "alice" is not
visible to "bob". -/
theorem c7_cache_isolation_witness :
    ("alice" : String) ≠ "bob"
    ∧ (getCacheKey "alice" "GET" "/x" "" "" ≠ getCacheKey "bob" "GET" "/x" "" ""
       ∧ getCachedResponse ⟨true, []⟩
           (cacheResponse ⟨true, []⟩ [] "alice" "GET" "/x" "" "" "resp")
           "bob" "GET" "/x" "" ""
         = getCachedResponse ⟨true, []⟩ [] "bob" "GET" "/x" "" "") :=
  ⟨by decide, c7_cache_isolation ⟨true, []⟩ [] "alice" "bob" "GET" "/x" "" "" "resp"
    (by decide)⟩

/-- Claim C8: the field-selective round trip is claimed to be the identity.
In the code `decrypt_sensitive_data` calls the nonexistent method
`decrypt_to_str`, so every listed sensitive field that is present and
non-`None` is set to `None` by the exception handler: the round trip maps
`\x7b"ssn": "123-45-6789", "name": "alice"\x7d` with sensitive field
`"ssn"` to `\x7b"ssn": None, "name": "alice"\x7d`, which differs from the
input. -/
theorem c8_sensitive_field_nulled :
    decryptSensitiveData (encryptSensitiveData 1 0 c8data ["ssn"]) ["ssn"]
      = [("ssn", none), ("name", some (.plain "alice"))]
    ∧ decryptSensitiveData (encryptSensitiveData 1 0 c8data ["ssn"]) ["ssn"] ≠ c8data := by
  decide

/-- Claim C9: for a three-item batch whose workflow fails on the second
item only, `process_job` attempts all items, records the failure as an
error result in the second slot, tags the first and third results
`success`, and finishes with terminal status `completed` (not `failed`)
and a completion timestamp. -/
theorem c9_item_failure_isolated {α β : Type} (wf : α → Except String β)
    (a b c : α) (m : String) (r1 r3 : β) (job : BatchJobM α β) (now : Int)
    (hin : job.inputs = [a, b, c]) (h1 : wf a = .ok r1) (h2 : wf b = .error m)
    (h3 : wf c = .ok r3) :
    (processJob wf now job).status = "completed"
    ∧ (processJob wf now job).status ≠ "failed"
    ∧ (processJob wf now job).completed_at = some now
    ∧ (processJob wf now job).results
        = [⟨"success", some r1, none⟩, ⟨"error", none, some m⟩,
           ⟨"success", some r3, none⟩] := by
  refine ⟨rfl, ?_, rfl, ?_⟩
  · show ("completed" : String) ≠ "failed"
    decide
  · simp [processJob, processItem, hin, h1, h2, h3]

def c9wf : Nat → Except String String :=
  fun n => if n = 2 then .error "boom" else if n = 1 then .ok "r1" else .ok "r3"

def jobC9 : BatchJobM Nat String := ⟨"j1", "agent", [1, 2, 3], "pending", [], none, none⟩

/-- Witness for C9 at a concrete job: a workflow failing exactly on input 2
yields the claimed result shape. -/
theorem c9_item_failure_isolated_witness :
    jobC9.inputs = [1, 2, 3]
    ∧ c9wf 1 = .ok "r1" ∧ c9wf 2 = .error "boom" ∧ c9wf 3 = .ok "r3"
    ∧ ((processJob c9wf 50 jobC9).status = "completed"
       ∧ (processJob c9wf 50 jobC9).status ≠ "failed"
       ∧ (processJob c9wf 50 jobC9).completed_at = some 50
       ∧ (processJob c9wf 50 jobC9).results
           = [⟨"success", some "r1", none⟩, ⟨"error", none, some "boom"⟩,
              ⟨"success", some "r3", none⟩]) :=
  ⟨rfl, rfl, rfl, rfl,
    c9_item_failure_isolated c9wf 1 2 3 "boom" "r1" "r3" jobC9 50 rfl rfl rfl rfl⟩

/-- Claim C10: every invocation of `check_rate_limit` — the whole pipeline
runs before the allow/reject decision is inspected — records the current
timestamp in the identity's window and refreshes the key's 60-second
expiry; consequently (whether or not the call was rejected) any subsequent
check at a time `t'` still inside the window (`t' < t + 60`) finds the
timestamp among the post-purge entries it counts. -/
theorem c10_rejected_call_consumes_capacity
    (limit : Nat) (st : RLState) (t t' : Int) (h : t' < t + 60) :
    t ∈ (checkRateLimit limit st t).state.entries
    ∧ (checkRateLimit limit st t).state.expireAt = some (t + 60)
    ∧ t ∈ purgeOld t' (loadWindow (checkRateLimit limit st t).state t') := by
  have hmem : t ∈ zaddNow t (purgeOld t (loadWindow st t)) := by
    unfold zaddNow
    split
    · assumption
    · simp
  refine ⟨hmem, rfl, ?_⟩
  have hload : loadWindow (checkRateLimit limit st t).state t'
      = zaddNow t (purgeOld t (loadWindow st t)) := by
    simp [checkRateLimit, loadWindow, not_le.mpr h]
  rw [hload]
  have hkeep : ¬ (t ≤ t' - 60) := by omega
  have hdec : decide (t ≤ t' - 60) = false := decide_eq_false hkeep
  have hpred : (!(decide (0 ≤ t) && decide (t ≤ t' - 60))) = true := by
    simp [hdec]
  exact List.mem_filter.mpr ⟨hmem, hpred⟩

/-- Witness for C10 at concrete inputs: with limit 0 the call at time 10 is
rejected, yet its timestamp is recorded, the expiry is refreshed to 70, and
a later check at time 20 (inside the window) still counts it. -/
theorem c10_rejected_call_consumes_capacity_witness :
    (checkRateLimit 0 ⟨[5], none⟩ 10).allowed = false
    ∧ ((20 : Int) < 10 + 60)
    ∧ (10 ∈ (checkRateLimit 0 ⟨[5], none⟩ 10).state.entries
       ∧ (checkRateLimit 0 ⟨[5], none⟩ 10).state.expireAt = some (10 + 60)
       ∧ 10 ∈ purgeOld 20 (loadWindow (checkRateLimit 0 ⟨[5], none⟩ 10).state 20)) :=
  ⟨by decide, by decide,
    c10_rejected_call_consumes_capacity 0 ⟨[5], none⟩ 10 20 (by decide)⟩

end AgentOrch
